import Mathlib

/-!
# Verification of the wavefile resampler interpolator

A shallow embedding of `src/lib/resampler/interpolator.js`, the
interpolation/resampling engine of the wavefile toolkit, together with
theorems settling the specification claims about it.

Modelling conventions:

* JavaScript numbers are modelled as real numbers (`ℝ`); sample indices and
  lengths as integers (`ℤ`).
* The JavaScript remainder operator `%` on integers is truncated remainder,
  which is `Int.tmod` — except that `t % 0` is `NaN`.  The one place a zero
  divisor can arise (the mirror policy at length 1, whose period is
  `2 * (1 - 1) = 0`) is modelled by an `Option`: `none` stands for the `NaN`
  produced by `t % 0`, which then propagates through the rest of the clip
  computation.
* `JavaScript`'s `x || d` default idiom maps an absent (`none`) or zero value
  to the default.
* An array access `samples[i]` with `i` outside the array yields `undefined`
  in JavaScript (and `NaN` in subsequent arithmetic); it is modelled as `0`.
  Under the preconditions of the theorems below every access is in range, so
  this default is never observable there.
-/

/-- JS `Math.round`: round half toward positive infinity, `⌊x + 1/2⌋`.
This agrees with Mathlib's `round` (`round_eq : round x = ⌊x + 1 / 2⌋`). -/
noncomputable def jsRound (x : ℝ) : ℤ := round x

/-- Array access `samples[i]` for an integer index, `0` out of range
(JS would give `undefined`/`NaN`; unreachable under the preconditions used). -/
def arrayGet (samples : List ℝ) (i : ℤ) : ℝ :=
  if 0 ≤ i ∧ i < samples.length then samples.getD i.toNat 0 else 0

/-! ## Clip functions (source: `clipClamp_`, `clipPeriodic_`, `clipMirror_`) -/

/-- Source `clipClamp_(t, n) = Math.max(0, Math.min(t, n - 1))`. -/
def clipClamp_ (t n : ℤ) : ℤ :=
  max 0 (min t (n - 1))

/-- Source `clipPeriodic_(t, n)`: `t = t % n; if (t < 0) t += n; return t`.
JS `%` is truncated remainder (`Int.tmod`); for `n = 0` it yields `NaN`,
modelled as `none`. -/
def clipPeriodic_ (t n : ℤ) : Option ℤ :=
  if n = 0 then none
  else
    let r := Int.tmod t n
    some (if r < 0 then r + n else r)

/-- Source `clipMirror_(t, n)`: reduce modulo the period `2 * (n - 1)` with
`clipPeriodic_`, then reflect the upper half: `if (t > n - 1) t = period - t`.
The `NaN` from a zero period (`n = 1`) propagates as `none`. -/
def clipMirror_ (t n : ℤ) : Option ℤ :=
  let period := 2 * (n - 1)
  (clipPeriodic_ t period).map (fun r => if r > n - 1 then period - r else r)

/-! ## Sinc and window functions (source: `sinc_`, `gaussianWindow_`,
`sincKernel_`, `lanczosWindow_`) -/

/-- Source `sinc_(x)`: `1` at `x = 0`, otherwise `sin(πx) / (πx)`. -/
noncomputable def sinc_ (x : ℝ) : ℝ :=
  if x = 0 then 1 else Real.sin (Real.pi * x) / (Real.pi * x)

/-- The default window: `gaussianWindow_(x) = exp(-x²)`. -/
noncomputable def gaussianWindow_ (x : ℝ) : ℝ :=
  Real.exp (-x * x)

/-- Source `sincKernel_(window)` returns `x ↦ sinc_(x) * window(x)`. -/
noncomputable def sincKernel_ (window : ℝ → ℝ) : ℝ → ℝ :=
  fun x => sinc_ x * window x

/-- Source `lanczosWindow_(size)` returns `x ↦ sinc_(x / size)`. -/
noncomputable def lanczosWindow_ (size : ℝ) : ℝ → ℝ :=
  fun x => sinc_ (x / size)

/-! ## Configuration -/

/-- The recognized fields of the `details` options object.  `none` models an
absent field. -/
structure Details where
  method : Option String
  clip : Option String
  tension : Option ℝ
  sincFilterSize : Option ℤ
  sincWindow : Option (ℝ → ℝ)
  lanczosFilterSize : Option ℤ

/-- The kernel selected at construction time.  The source stores a bound
method reference (`this.interpolate = this.sinc` etc.); the embedding stores
the equivalent tag, dispatched by `Interpolator.evaluate`. -/
inductive KernelFn where
  | point
  | linear
  | cubic
  | sinc
deriving DecidableEq

/-- The clip function selected at construction time (a stored function
reference in the source, a tag here, dispatched by `clipApply`). -/
inductive ClipFn where
  | clamp
  | periodic
  | mirror
deriving DecidableEq

/-- Dispatch of the stored clip-function reference. -/
def clipApply : ClipFn → ℤ → ℤ → Option ℤ
  | ClipFn.clamp, t, n => some (clipClamp_ t n)
  | ClipFn.periodic, t, n => clipPeriodic_ t n
  | ClipFn.mirror, t, n => clipMirror_ t n

/-- The state built by the `Interpolator` constructor.  Note the two distinct
fields `sincFilterSize_` (with underscore, read by the sinc summation) and
`sincFilterSize` (no underscore, written only by the lanczos branch of the
constructor and never read) — both exist in the source. -/
structure Interpolator where
  length_ : ℤ
  scaleFactor_ : ℝ
  interpolate : KernelFn
  clip_ : ClipFn
  tangentFactor_ : ℝ
  sincFilterSize_ : ℤ
  kernel_ : ℝ → ℝ
  sincFilterSize : Option ℤ

/-- The `Interpolator` constructor.

```
this.length_ = scaleFrom;
this.scaleFactor_ = (scaleFrom - 1) / scaleTo;
this.interpolate = this.sinc;
if (details.method === 'point') ... else if ('linear') ... else if ('cubic') ...
this.clip_ = clipClamp_;
if (details.clip === 'periodic') { this.scaleFactor_ = scaleFrom / scaleTo; this.clip_ = clipPeriodic_; }
else if (details.clip === 'mirror') { this.clip_ = clipMirror_; }
this.tangentFactor_ = 1 - Math.max(0, Math.min(1, details.tension || 0));
this.sincFilterSize_ = details.sincFilterSize || 1;
this.kernel_ = sincKernel_(details.sincWindow || gaussianWindow_);
if (details.method === 'lanczos') {
  this.kernel_ = sincKernel_(lanczosWindow_(details.lanczosFilterSize));
  this.sincFilterSize = details.lanczosFilterSize;
}
```

An absent `lanczosFilterSize` is passed to `lanczosWindow_` as `0` (JS would
produce a `NaN` window; no claim exercises that configuration). -/
noncomputable def Interpolator.create (scaleFrom scaleTo : ℤ) (details : Details) :
    Interpolator :=
  { length_ := scaleFrom
    scaleFactor_ :=
      if details.clip = some "periodic" then (scaleFrom : ℝ) / (scaleTo : ℝ)
      else ((scaleFrom : ℝ) - 1) / (scaleTo : ℝ)
    interpolate :=
      if details.method = some "point" then KernelFn.point
      else if details.method = some "linear" then KernelFn.linear
      else if details.method = some "cubic" then KernelFn.cubic
      else KernelFn.sinc
    clip_ :=
      if details.clip = some "periodic" then ClipFn.periodic
      else if details.clip = some "mirror" then ClipFn.mirror
      else ClipFn.clamp
    tangentFactor_ := 1 - max 0 (min 1 (details.tension.getD 0))
    sincFilterSize_ :=
      match details.sincFilterSize with
      | none => 1
      | some v => if v = 0 then 1 else v
    kernel_ :=
      if details.method = some "lanczos" then
        sincKernel_ (lanczosWindow_ ((details.lanczosFilterSize.getD 0 : ℤ) : ℝ))
      else
        sincKernel_ (details.sincWindow.getD gaussianWindow_)
    sincFilterSize :=
      if details.method = some "lanczos" then details.lanczosFilterSize else none }

/-! ## Sample fetch and the four kernels -/

/-- Source `getClippedInput_(t, samples)`: direct access when `0 ≤ t < length_`,
otherwise access at the clipped index.  A `none` clip result is the JS
`samples[NaN]` (`undefined`); modelled as `0`, unreachable under the
preconditions of the theorems below. -/
noncomputable def Interpolator.getClippedInput_ (ip : Interpolator) (t : ℤ)
    (samples : List ℝ) : ℝ :=
  if 0 ≤ t ∧ t < ip.length_ then arrayGet samples t
  else
    match clipApply ip.clip_ t ip.length_ with
    | some i => arrayGet samples i
    | none => 0

/-- Source `point(t, samples)`: nearest-neighbor at `Math.round(scaleFactor_ * t)`. -/
noncomputable def Interpolator.point (ip : Interpolator) (t : ℝ)
    (samples : List ℝ) : ℝ :=
  ip.getClippedInput_ (jsRound (ip.scaleFactor_ * t)) samples

/-- Source `linear(t, samples)`: blend of the two bracketing samples. -/
noncomputable def Interpolator.linear (ip : Interpolator) (t : ℝ)
    (samples : List ℝ) : ℝ :=
  let u := ip.scaleFactor_ * t
  let k := ⌊u⌋
  let f := u - (k : ℝ)
  (1 - f) * ip.getClippedInput_ k samples +
    f * ip.getClippedInput_ (k + 1) samples

/-- Source `getTangent_(k, samples)`: centered difference scaled by the tangent
factor. -/
noncomputable def Interpolator.getTangent_ (ip : Interpolator) (k : ℤ)
    (samples : List ℝ) : ℝ :=
  ip.tangentFactor_ *
    (ip.getClippedInput_ (k + 1) samples - ip.getClippedInput_ (k - 1) samples) / 2

/-- Source `cubic(t, samples)`: Hermite spline with finite-difference tangents. -/
noncomputable def Interpolator.cubic (ip : Interpolator) (t : ℝ)
    (samples : List ℝ) : ℝ :=
  let u := ip.scaleFactor_ * t
  let k := ⌊u⌋
  let m0 := ip.getTangent_ k samples
  let m1 := ip.getTangent_ (k + 1) samples
  let p0 := ip.getClippedInput_ k samples
  let p1 := ip.getClippedInput_ (k + 1) samples
  let f := u - (k : ℝ)
  let f2 := f * f
  let f3 := f * f2
  (2 * f3 - 3 * f2 + 1) * p0 + (f3 - 2 * f2 + f) * m0 +
    (-2 * f3 + 3 * f2) * p1 + (f3 - f2) * m1

/-- Source `sinc(t, samples)`: windowed-sinc summation.  The source's loop runs `n`
from `ref = k - sincFilterSize_ + 1` to `ref1 = k + sincFilterSize_`, upward
when `ref ≤ ref1` and downward otherwise; either way it visits every integer
between the two bounds once. -/
noncomputable def Interpolator.sinc (ip : Interpolator) (t : ℝ)
    (samples : List ℝ) : ℝ :=
  let u := ip.scaleFactor_ * t
  let k := ⌊u⌋
  let ref := k - ip.sincFilterSize_ + 1
  let ref1 := k + ip.sincFilterSize_
  if ref ≤ ref1 then
    ∑ j ∈ Finset.Icc ref ref1, ip.kernel_ (u - (j : ℝ)) * ip.getClippedInput_ j samples
  else
    ∑ j ∈ Finset.Icc ref1 ref, ip.kernel_ (u - (j : ℝ)) * ip.getClippedInput_ j samples

/-- Evaluation: dispatch on the stored kernel reference. -/
noncomputable def Interpolator.evaluate (ip : Interpolator) (t : ℝ)
    (samples : List ℝ) : ℝ :=
  match ip.interpolate with
  | KernelFn.point => ip.point t samples
  | KernelFn.linear => ip.linear t samples
  | KernelFn.cubic => ip.cubic t samples
  | KernelFn.sinc => ip.sinc t samples

/-! ## Concrete option records used as test inputs -/

/-- Options `{method: 'lanczos', lanczosFilterSize: 3}`. -/
def detailsLanczos3 : Details :=
  ⟨some "lanczos", none, none, none, none, some 3⟩

/-- Options `{method: 'point', clip: 'clamp'}`. -/
def detailsPointClamp : Details :=
  ⟨some "point", some "clamp", none, none, none, none⟩

/-- Options `{method: 'unknown'}` — an unrecognized method string. -/
def detailsUnknown : Details :=
  ⟨some "unknown", none, none, none, none, none⟩

/-- Options `{method: 'sinc'}`. -/
def detailsSinc : Details :=
  ⟨some "sinc", none, none, none, none, none⟩

/-- Options `{method: 'linear'}`. -/
def detailsLinear : Details :=
  ⟨some "linear", none, none, none, none, none⟩

/-- Options `{method: 'cubic'}`. -/
def detailsCubic : Details :=
  ⟨some "cubic", none, none, none, none, none⟩

/-- Options `{clip: 'mirror'}`. -/
def detailsMirrorOnly : Details :=
  ⟨none, some "mirror", none, none, none, none⟩

/-! ## Helper lemmas on the truncated remainder -/

theorem tmod_neg_left (a b : ℤ) : (-a).tmod b = -(a.tmod b) := by
  rw [Int.tmod_def, Int.tmod_def, Int.neg_tdiv]
  ring

theorem tmod_bounds {t n : ℤ} (hn : 0 < n) :
    -n < Int.tmod t n ∧ Int.tmod t n < n := by
  refine ⟨?_, Int.tmod_lt_of_pos t hn⟩
  rcases le_or_lt 0 t with h | h
  · have h1 := Int.tmod_nonneg n h
    omega
  · have h1 := Int.tmod_nonneg n (by omega : (0:ℤ) ≤ -t)
    have h2 := Int.tmod_lt_of_pos (-t) hn
    have h3 := tmod_neg_left t n
    omega

theorem clipPeriodic_mem {t n : ℤ} (hn : 0 < n) :
    ∃ r, clipPeriodic_ t n = some r ∧ 0 ≤ r ∧ r < n := by
  have hb := tmod_bounds (t := t) hn
  unfold clipPeriodic_
  rw [if_neg (by omega : ¬ n = 0)]
  refine ⟨_, rfl, ?_, ?_⟩ <;> dsimp only <;> split <;> omega

theorem clipMirror_mem {t n : ℤ} (hn : 2 ≤ n) :
    ∃ r, clipMirror_ t n = some r ∧ 0 ≤ r ∧ r < n := by
  obtain ⟨r0, h0, h1, h2⟩ := clipPeriodic_mem (t := t) (by omega : 0 < 2 * (n - 1))
  unfold clipMirror_
  dsimp only
  rw [h0, Option.map_some']
  refine ⟨_, rfl, ?_, ?_⟩ <;> dsimp only <;> split <;> omega

/-! ## Claims -/

/-- C4: the boundary mappers produce exactly the spec's example values:
`clamp(-1,5)=0`, `clamp(5,5)=4`, `clamp(2,5)=2`; `periodic(-1,5)=4`,
`periodic(5,5)=0`, `periodic(7,5)=2`; `mirror(-1,5)=1`, `mirror(8,5)=0`,
`mirror(5,5)=3`. -/
theorem C4_mapper_examples :
    clipClamp_ (-1) 5 = 0 ∧ clipClamp_ 5 5 = 4 ∧ clipClamp_ 2 5 = 2 ∧
    clipPeriodic_ (-1) 5 = some 4 ∧ clipPeriodic_ 5 5 = some 0 ∧
    clipPeriodic_ 7 5 = some 2 ∧
    clipMirror_ (-1) 5 = some 1 ∧ clipMirror_ 8 5 = some 0 ∧
    clipMirror_ 5 5 = some 3 := by
  decide

/-- C2 counterexample: the claim fails for the mirror mapper at `n = 1`:
the mirror period is `2 * (1 - 1) = 0`, so the inner periodic reduction
computes `t % 0`, which is `NaN` in JavaScript (`none` here) — not an
integer in `[0, 1)`. -/
theorem C2_mirror_at_one_counterexample :
    clipMirror_ 0 1 = none ∧ ∀ r : ℤ, clipMirror_ 0 1 = some r → False :=
  ⟨rfl, fun _ h => Option.noConfusion h⟩

/-- C2 (amended): for every `n ≥ 1` and every integer `t`, clamp and periodic
return an integer in `[0, n)`; mirror does so for every `n ≥ 2` (at `n = 1`
its period is `0` and the JS remainder yields `NaN`). -/
theorem C2_clip_range (n t : ℤ) (hn : 1 ≤ n) :
    (0 ≤ clipClamp_ t n ∧ clipClamp_ t n < n) ∧
    (∃ r, clipPeriodic_ t n = some r ∧ 0 ≤ r ∧ r < n) ∧
    (2 ≤ n → ∃ r, clipMirror_ t n = some r ∧ 0 ≤ r ∧ r < n) := by
  refine ⟨?_, clipPeriodic_mem (by omega), fun h2 => clipMirror_mem h2⟩
  unfold clipClamp_
  omega

theorem C2_clip_range_witness :
    (0 ≤ clipClamp_ (-3) 2 ∧ clipClamp_ (-3) 2 < 2) ∧
    (∃ r, clipPeriodic_ (-3) 2 = some r ∧ 0 ≤ r ∧ r < 2) ∧
    (2 ≤ (2:ℤ) → ∃ r, clipMirror_ (-3) 2 = some r ∧ 0 ≤ r ∧ r < 2) :=
  C2_clip_range 2 (-3) (by decide)

/-- C5: for `sourceLength ≥ 1` and `targetLength ≥ 1`, the derived scale
factor is `(sourceLength - 1) / targetLength` when the boundary policy
resolves to clamp or mirror, and `sourceLength / targetLength` when it is
periodic. -/
theorem C5_scaleFactor (scaleFrom scaleTo : ℤ) (hf : 1 ≤ scaleFrom)
    (ht : 1 ≤ scaleTo) (d : Details) :
    (((Interpolator.create scaleFrom scaleTo d).clip_ = ClipFn.clamp ∨
        (Interpolator.create scaleFrom scaleTo d).clip_ = ClipFn.mirror) →
      (Interpolator.create scaleFrom scaleTo d).scaleFactor_ =
        ((scaleFrom : ℝ) - 1) / (scaleTo : ℝ)) ∧
    ((Interpolator.create scaleFrom scaleTo d).clip_ = ClipFn.periodic →
      (Interpolator.create scaleFrom scaleTo d).scaleFactor_ =
        (scaleFrom : ℝ) / (scaleTo : ℝ)) := by
  by_cases hp : d.clip = some "periodic"
  · simp [Interpolator.create, hp]
  · by_cases hm : d.clip = some "mirror" <;>
      simp [Interpolator.create, hp, hm]

theorem C5_scaleFactor_witness :
    (((Interpolator.create 5 2 detailsMirrorOnly).clip_ = ClipFn.clamp ∨
        (Interpolator.create 5 2 detailsMirrorOnly).clip_ = ClipFn.mirror) →
      (Interpolator.create 5 2 detailsMirrorOnly).scaleFactor_ =
        (((5:ℤ) : ℝ) - 1) / ((2:ℤ) : ℝ)) ∧
    ((Interpolator.create 5 2 detailsMirrorOnly).clip_ = ClipFn.periodic →
      (Interpolator.create 5 2 detailsMirrorOnly).scaleFactor_ =
        ((5:ℤ) : ℝ) / ((2:ℤ) : ℝ)) :=
  C5_scaleFactor 5 2 (by decide) (by decide) detailsMirrorOnly

/-- C6: any options record whose method is none of point/linear/cubic/lanczos
and whose clip is neither periodic nor mirror selects the sinc kernel with
the default Gaussian window (when no window is supplied), sinc filter size
defaulting to 1 (when none is supplied), and the clamp mapper; the whole
configuration — hence `evaluate` on every input — is identical to the one
built with `method: 'sinc'`. -/
theorem C6_fallback (scaleFrom scaleTo : ℤ) (d : Details)
    (hm1 : d.method ≠ some "point") (hm2 : d.method ≠ some "linear")
    (hm3 : d.method ≠ some "cubic") (hm4 : d.method ≠ some "lanczos")
    (hc1 : d.clip ≠ some "periodic") (hc2 : d.clip ≠ some "mirror") :
    (Interpolator.create scaleFrom scaleTo d).interpolate = KernelFn.sinc ∧
    (Interpolator.create scaleFrom scaleTo d).clip_ = ClipFn.clamp ∧
    (d.sincWindow = none →
      (Interpolator.create scaleFrom scaleTo d).kernel_ =
        sincKernel_ gaussianWindow_) ∧
    (d.sincFilterSize = none →
      (Interpolator.create scaleFrom scaleTo d).sincFilterSize_ = 1) ∧
    Interpolator.create scaleFrom scaleTo d =
      Interpolator.create scaleFrom scaleTo { d with method := some "sinc" } ∧
    ∀ (t : ℝ) (samples : List ℝ),
      (Interpolator.create scaleFrom scaleTo d).evaluate t samples =
        (Interpolator.create scaleFrom scaleTo
          { d with method := some "sinc" }).evaluate t samples := by
  have key : Interpolator.create scaleFrom scaleTo d =
      Interpolator.create scaleFrom scaleTo { d with method := some "sinc" } := by
    simp [Interpolator.create, hm1, hm2, hm3, hm4]
  refine ⟨?_, ?_, ?_, ?_, key, fun t samples => by rw [key]⟩
  · simp [Interpolator.create, hm1, hm2, hm3]
  · simp [Interpolator.create, hc1, hc2]
  · intro hw
    simp [Interpolator.create, hm4, hw]
  · intro hs
    simp [Interpolator.create, hs]

theorem C6_fallback_witness :
    (Interpolator.create 5 3 detailsUnknown).interpolate = KernelFn.sinc ∧
    (Interpolator.create 5 3 detailsUnknown).clip_ = ClipFn.clamp ∧
    (detailsUnknown.sincWindow = none →
      (Interpolator.create 5 3 detailsUnknown).kernel_ =
        sincKernel_ gaussianWindow_) ∧
    (detailsUnknown.sincFilterSize = none →
      (Interpolator.create 5 3 detailsUnknown).sincFilterSize_ = 1) ∧
    Interpolator.create 5 3 detailsUnknown =
      Interpolator.create 5 3 { detailsUnknown with method := some "sinc" } ∧
    ∀ (t : ℝ) (samples : List ℝ),
      (Interpolator.create 5 3 detailsUnknown).evaluate t samples =
        (Interpolator.create 5 3
          { detailsUnknown with method := some "sinc" }).evaluate t samples :=
  C6_fallback 5 3 detailsUnknown (by decide) (by decide) (by decide)
    (by decide) (by decide) (by decide)

/-- C1 (code bug): constructing with `method: 'lanczos'` and
`lanczosFilterSize: 3` leaves the summation's filter size `sincFilterSize_`
at its default `1`; the constructor writes `3` only to the distinct,
never-read `sincFilterSize` property (no trailing underscore), even though
the lanczos window itself is built with size `3`. -/
theorem C1_lanczos_filter_size_bug :
    (Interpolator.create 8 4 detailsLanczos3).sincFilterSize_ = 1 ∧
    (Interpolator.create 8 4 detailsLanczos3).sincFilterSize = some 3 ∧
    (Interpolator.create 8 4 detailsLanczos3).kernel_ =
      sincKernel_ (lanczosWindow_ ((3:ℤ) : ℝ)) :=
  ⟨rfl, rfl, rfl⟩

/-- C9: the raw sinc function is even, and `sinc_(0) = 1` exactly (the
division by `πx` is never performed at `x = 0`). -/
theorem C9_sinc_even_and_unit_at_zero :
    (∀ x : ℝ, sinc_ x = sinc_ (-x)) ∧ sinc_ 0 = 1 := by
  constructor
  · intro x
    by_cases hx : x = 0
    · rw [hx, neg_zero]
    · simp only [sinc_, if_neg hx, if_neg (neg_ne_zero.mpr hx), mul_neg,
        Real.sin_neg, neg_div_neg_eq]
  · simp [sinc_]

/-- C8: for method `'cubic'`, the result is the Hermite basis combination
`h00(f)·fetch(k) + h10(f)·m0 + h01(f)·fetch(k+1) + h11(f)·m1` with
`m0 = tangentFactor·(fetch(k+1) - fetch(k-1))/2`,
`m1 = tangentFactor·(fetch(k+2) - fetch(k))/2`,
`h00 = 2f³-3f²+1`, `h10 = f³-2f²+f`, `h01 = -2f³+3f²`, `h11 = f³-f²`,
where `u = scaleFactor·t`, `k = ⌊u⌋`, `f = u - k`. -/
theorem C8_cubic_formula (scaleFrom scaleTo : ℤ) (d : Details)
    (hm : d.method = some "cubic") (t : ℝ) (samples : List ℝ) :
    (Interpolator.create scaleFrom scaleTo d).evaluate t samples =
      (let ip := Interpolator.create scaleFrom scaleTo d
       let u := ip.scaleFactor_ * t
       let k := ⌊u⌋
       let f := u - (k : ℝ)
       let m0 := ip.tangentFactor_ *
         (ip.getClippedInput_ (k + 1) samples -
           ip.getClippedInput_ (k - 1) samples) / 2
       let m1 := ip.tangentFactor_ *
         (ip.getClippedInput_ (k + 2) samples -
           ip.getClippedInput_ k samples) / 2
       (2 * f ^ 3 - 3 * f ^ 2 + 1) * ip.getClippedInput_ k samples +
         (f ^ 3 - 2 * f ^ 2 + f) * m0 +
         (-2 * f ^ 3 + 3 * f ^ 2) * ip.getClippedInput_ (k + 1) samples +
         (f ^ 3 - f ^ 2) * m1) := by
  have hip : (Interpolator.create scaleFrom scaleTo d).interpolate =
      KernelFn.cubic := by
    simp [Interpolator.create, hm]
  unfold Interpolator.evaluate
  rw [hip]
  unfold Interpolator.cubic Interpolator.getTangent_
  dsimp only
  set k := ⌊(Interpolator.create scaleFrom scaleTo d).scaleFactor_ * t⌋ with hk
  have h1 : k + 1 + 1 = k + 2 := by omega
  have h2 : k + 1 - 1 = k := by omega
  rw [h1, h2]
  ring

theorem C8_cubic_formula_witness :
    (Interpolator.create 5 3 detailsCubic).evaluate (1 : ℝ) [0, 10, 20, 30, 40] =
      (let ip := Interpolator.create 5 3 detailsCubic
       let u := ip.scaleFactor_ * (1 : ℝ)
       let k := ⌊u⌋
       let f := u - (k : ℝ)
       let m0 := ip.tangentFactor_ *
         (ip.getClippedInput_ (k + 1) [0, 10, 20, 30, 40] -
           ip.getClippedInput_ (k - 1) [0, 10, 20, 30, 40]) / 2
       let m1 := ip.tangentFactor_ *
         (ip.getClippedInput_ (k + 2) [0, 10, 20, 30, 40] -
           ip.getClippedInput_ k [0, 10, 20, 30, 40]) / 2
       (2 * f ^ 3 - 3 * f ^ 2 + 1) * ip.getClippedInput_ k [0, 10, 20, 30, 40] +
         (f ^ 3 - 2 * f ^ 2 + f) * m0 +
         (-2 * f ^ 3 + 3 * f ^ 2) * ip.getClippedInput_ (k + 1) [0, 10, 20, 30, 40] +
         (f ^ 3 - f ^ 2) * m1) :=
  C8_cubic_formula 5 3 detailsCubic (by decide) 1 [0, 10, 20, 30, 40]

/-- C7: for method `'sinc'` (or `'lanczos'`), the result is the sum over
every integer `n` in `[k - filterSize + 1, k + filterSize]` (with
`u = scaleFactor·t`, `k = ⌊u⌋`, and `filterSize` the configured sinc filter
size field read by the loop) of `kernel(u - n) · fetch(n)`, where
`kernel(x) = sinc_(x) · window(x)` and `sinc_` is `1` at `0` and
`sin(πx)/(πx)` elsewhere. -/
theorem C7_sinc_summation (scaleFrom scaleTo : ℤ) (d : Details)
    (hm : d.method = some "sinc" ∨ d.method = some "lanczos")
    (hfs : 1 ≤ (Interpolator.create scaleFrom scaleTo d).sincFilterSize_)
    (t : ℝ) (samples : List ℝ) :
    ∃ window : ℝ → ℝ,
      (Interpolator.create scaleFrom scaleTo d).kernel_ = sincKernel_ window ∧
      (∀ x : ℝ,
        (Interpolator.create scaleFrom scaleTo d).kernel_ x = sinc_ x * window x) ∧
      sinc_ 0 = 1 ∧
      (∀ x : ℝ, x ≠ 0 → sinc_ x = Real.sin (Real.pi * x) / (Real.pi * x)) ∧
      (Interpolator.create scaleFrom scaleTo d).evaluate t samples =
        (let ip := Interpolator.create scaleFrom scaleTo d
         let u := ip.scaleFactor_ * t
         let k := ⌊u⌋
         ∑ j ∈ Finset.Icc (k - ip.sincFilterSize_ + 1) (k + ip.sincFilterSize_),
           ip.kernel_ (u - (j : ℝ)) * ip.getClippedInput_ j samples) := by
  have hip : (Interpolator.create scaleFrom scaleTo d).interpolate =
      KernelFn.sinc := by
    rcases hm with hm | hm <;> simp [Interpolator.create, hm]
  have heval : (Interpolator.create scaleFrom scaleTo d).evaluate t samples =
      (let ip := Interpolator.create scaleFrom scaleTo d
       let u := ip.scaleFactor_ * t
       let k := ⌊u⌋
       ∑ j ∈ Finset.Icc (k - ip.sincFilterSize_ + 1) (k + ip.sincFilterSize_),
         ip.kernel_ (u - (j : ℝ)) * ip.getClippedInput_ j samples) := by
    unfold Interpolator.evaluate
    rw [hip]
    unfold Interpolator.sinc
    dsimp only
    rw [if_pos (by omega :
      ⌊(Interpolator.create scaleFrom scaleTo d).scaleFactor_ * t⌋ -
          (Interpolator.create scaleFrom scaleTo d).sincFilterSize_ + 1 ≤
        ⌊(Interpolator.create scaleFrom scaleTo d).scaleFactor_ * t⌋ +
          (Interpolator.create scaleFrom scaleTo d).sincFilterSize_)]
  rcases hm with hm | hm
  · exact ⟨d.sincWindow.getD gaussianWindow_, by simp [Interpolator.create, hm],
      fun x => by simp [Interpolator.create, hm, sincKernel_],
      by simp [sinc_], fun x hx => by simp [sinc_, if_neg hx], heval⟩
  · exact ⟨lanczosWindow_ ((d.lanczosFilterSize.getD 0 : ℤ) : ℝ),
      by simp [Interpolator.create, hm],
      fun x => by simp [Interpolator.create, hm, sincKernel_],
      by simp [sinc_], fun x hx => by simp [sinc_, if_neg hx], heval⟩

theorem C7_sinc_summation_witness :
    ∃ window : ℝ → ℝ,
      (Interpolator.create 5 3 detailsSinc).kernel_ = sincKernel_ window ∧
      (∀ x : ℝ,
        (Interpolator.create 5 3 detailsSinc).kernel_ x = sinc_ x * window x) ∧
      sinc_ 0 = 1 ∧
      (∀ x : ℝ, x ≠ 0 → sinc_ x = Real.sin (Real.pi * x) / (Real.pi * x)) ∧
      (Interpolator.create 5 3 detailsSinc).evaluate (2 : ℝ) [0, 10, 20, 30, 40] =
        (let ip := Interpolator.create 5 3 detailsSinc
         let u := ip.scaleFactor_ * (2 : ℝ)
         let k := ⌊u⌋
         ∑ j ∈ Finset.Icc (k - ip.sincFilterSize_ + 1) (k + ip.sincFilterSize_),
           ip.kernel_ (u - (j : ℝ)) * ip.getClippedInput_ j [0, 10, 20, 30, 40]) :=
  C7_sinc_summation 5 3 detailsSinc (Or.inl rfl) (by decide) 2 [0, 10, 20, 30, 40]

/-- The rounded source index used by the point kernel at integer output index
`t ∈ [0, n)` under the clamp/mirror scale factor `(n-1)/n`: it is `t` when
`2t ≤ n` and `t - 1` otherwise. -/
theorem jsRound_point_index (n t : ℤ) (hn : 1 ≤ n) (ht0 : 0 ≤ t) (htn : t < n) :
    jsRound ((((n : ℝ) - 1) / (n : ℝ)) * (t : ℝ)) =
      if 2 * t ≤ n then t else t - 1 := by
  have hnz : (0:ℤ) < n := by omega
  have hnR : (0:ℝ) < (n:ℝ) := by exact_mod_cast hnz
  have hne : (n:ℝ) ≠ 0 := ne_of_gt hnR
  have hu : (((n : ℝ) - 1) / (n : ℝ)) * (t : ℝ) + 1/2
      = (t : ℝ) + (1/2 - (t:ℝ)/(n:ℝ)) := by
    field_simp
    ring
  rw [jsRound, round_eq, hu, Int.floor_int_add]
  by_cases h2 : 2 * t ≤ n
  · have hfrac : ⌊(1/2 - (t:ℝ)/(n:ℝ))⌋ = 0 := by
      rw [Int.floor_eq_iff]
      constructor
      · have hdiv : (t:ℝ)/(n:ℝ) ≤ 1/2 := by
          rw [div_le_iff₀ hnR]
          have h2R : ((2 * t : ℤ) : ℝ) ≤ ((n : ℤ) : ℝ) := by exact_mod_cast h2
          push_cast at h2R
          linarith
        push_cast
        linarith
      · have ht0R : (0:ℝ) ≤ (t:ℝ)/(n:ℝ) := by
          apply div_nonneg
          · exact_mod_cast ht0
          · linarith
        push_cast
        linarith
    rw [hfrac, if_pos h2]
    omega
  · have hfrac : ⌊(1/2 - (t:ℝ)/(n:ℝ))⌋ = -1 := by
      rw [Int.floor_eq_iff]
      constructor
      · have hlt : (t:ℝ)/(n:ℝ) < 1 := by
          rw [div_lt_one hnR]
          exact_mod_cast htn
        push_cast
        linarith
      · have hgt : 1/2 < (t:ℝ)/(n:ℝ) := by
          rw [lt_div_iff₀ hnR]
          have h2R : ((n : ℤ) : ℝ) < ((2 * t : ℤ) : ℝ) := by
            exact_mod_cast (by omega : n < 2 * t)
          push_cast at h2R
          linarith
        push_cast
        linarith
    rw [hfrac, if_neg h2]
    omega

/-- C3 counterexample: with `method='point'`, `clip='clamp'`,
`sourceLength = targetLength = 5` and samples `[0,10,20,30,40]`, the output
at `t = 4` is `samples[3] = 30`, not `samples[4] = 40`: the scale factor
`(5-1)/5` maps `t = 4` to `3.2`, which rounds to `3`. -/
theorem C3_point_identity_counterexample :
    (Interpolator.create 5 5 detailsPointClamp).evaluate ((4:ℤ) : ℝ)
        [0, 10, 20, 30, 40] = arrayGet [0, 10, 20, 30, 40] 3 ∧
    arrayGet [0, 10, 20, 30, 40] 3 = 30 ∧
    arrayGet [0, 10, 20, 30, 40] 4 = 40 ∧
    (30 : ℝ) ≠ 40 := by
  have hip : (Interpolator.create 5 5 detailsPointClamp).interpolate =
      KernelFn.point := by
    simp [Interpolator.create, detailsPointClamp]
  have hsf : (Interpolator.create 5 5 detailsPointClamp).scaleFactor_ =
      (((5:ℤ) : ℝ) - 1) / ((5:ℤ) : ℝ) := by
    simp [Interpolator.create, detailsPointClamp]
  refine ⟨?_, rfl, rfl, by norm_num⟩
  unfold Interpolator.evaluate
  rw [hip]
  unfold Interpolator.point
  rw [hsf, jsRound_point_index 5 4 (by decide) (by decide) (by decide)]
  norm_num
  rw [Interpolator.getClippedInput_,
    if_pos (show (0:ℤ) ≤ 3 ∧ (3:ℤ) <
      (Interpolator.create 5 5 detailsPointClamp).length_ from by constructor <;> decide)]

/-- C3 (amended): with `method='point'`, `clip='clamp'` and
`sourceLength = targetLength = n`, for every integer `t ∈ [0, n)` the output
is `samples[t]` when `2t ≤ n` and `samples[t-1]` otherwise (the scale factor
`(n-1)/n` shifts the rounded index down by one on the upper half). -/
theorem C3_point_identity_amended (n : ℤ) (hn : 1 ≤ n) (t : ℤ)
    (ht0 : 0 ≤ t) (htn : t < n) (samples : List ℝ) :
    (Interpolator.create n n detailsPointClamp).evaluate ((t:ℤ) : ℝ) samples =
      if 2 * t ≤ n then arrayGet samples t else arrayGet samples (t - 1) := by
  have hip : (Interpolator.create n n detailsPointClamp).interpolate =
      KernelFn.point := by
    simp [Interpolator.create, detailsPointClamp]
  have hsf : (Interpolator.create n n detailsPointClamp).scaleFactor_ =
      ((n : ℝ) - 1) / (n : ℝ) := by
    simp [Interpolator.create, detailsPointClamp]
  unfold Interpolator.evaluate
  rw [hip]
  unfold Interpolator.point
  rw [hsf, jsRound_point_index n t hn ht0 htn]
  by_cases h2 : 2 * t ≤ n
  · rw [if_pos h2, if_pos h2, Interpolator.getClippedInput_,
      if_pos (show (0:ℤ) ≤ t ∧ t <
        (Interpolator.create n n detailsPointClamp).length_ from ⟨ht0, htn⟩)]
  · rw [if_neg h2, if_neg h2, Interpolator.getClippedInput_,
      if_pos (show (0:ℤ) ≤ t - 1 ∧ t - 1 <
        (Interpolator.create n n detailsPointClamp).length_ from
          ⟨by omega, by show t - 1 < n; omega⟩)]

theorem C3_point_identity_amended_witness :
    (Interpolator.create 5 5 detailsPointClamp).evaluate ((4:ℤ) : ℝ)
        [0, 10, 20, 30, 40] =
      if 2 * (4:ℤ) ≤ 5 then arrayGet [0, 10, 20, 30, 40] 4
      else arrayGet [0, 10, 20, 30, 40] (4 - 1) :=
  C3_point_identity_amended 5 (by decide) 4 (by decide) (by decide)
    [0, 10, 20, 30, 40]

/-- C10: for method `'linear'` with the clamp policy and `sourceLength ≥ 2`,
for every real `t` with `0 ≤ t < targetLength`, both indices accessed by the
linear kernel — `k = ⌊scaleFactor·t⌋` and `k + 1` — already lie in
`[0, sourceLength)`, so `getClippedInput_` takes its direct branch and the
boundary mapper is never called. -/
theorem C10_linear_clamp_in_range (n m : ℤ) (hn : 2 ≤ n) (t : ℝ)
    (ht0 : 0 ≤ t) (htm : t < (m : ℝ)) (d : Details)
    (hme : d.method = some "linear")
    (hc1 : d.clip ≠ some "periodic") (hc2 : d.clip ≠ some "mirror") :
    (0 ≤ ⌊(Interpolator.create n m d).scaleFactor_ * t⌋ ∧
      ⌊(Interpolator.create n m d).scaleFactor_ * t⌋ + 1 < n) ∧
    ∀ samples : List ℝ,
      (Interpolator.create n m d).getClippedInput_
          ⌊(Interpolator.create n m d).scaleFactor_ * t⌋ samples =
        arrayGet samples ⌊(Interpolator.create n m d).scaleFactor_ * t⌋ ∧
      (Interpolator.create n m d).getClippedInput_
          (⌊(Interpolator.create n m d).scaleFactor_ * t⌋ + 1) samples =
        arrayGet samples (⌊(Interpolator.create n m d).scaleFactor_ * t⌋ + 1) := by
  have hsf : (Interpolator.create n m d).scaleFactor_ = ((n:ℝ) - 1) / (m:ℝ) := by
    simp [Interpolator.create, hc1]
  have hmR : (0:ℝ) < (m:ℝ) := lt_of_le_of_lt ht0 htm
  have hnR : (1:ℝ) ≤ (n:ℝ) - 1 := by
    have h2R : ((2:ℤ):ℝ) ≤ (n:ℝ) := by exact_mod_cast hn
    push_cast at h2R
    linarith
  set u := (Interpolator.create n m d).scaleFactor_ * t with hu
  have hu0 : 0 ≤ u := by
    rw [hu, hsf]
    exact mul_nonneg (div_nonneg (by linarith) (le_of_lt hmR)) ht0
  have hu1 : u < (n:ℝ) - 1 := by
    rw [hu, hsf]
    calc ((n:ℝ) - 1) / (m:ℝ) * t < ((n:ℝ) - 1) / (m:ℝ) * (m:ℝ) :=
          mul_lt_mul_of_pos_left htm (div_pos (by linarith) hmR)
      _ = (n:ℝ) - 1 := by field_simp
  have hk0 : 0 ≤ ⌊u⌋ := Int.floor_nonneg.mpr hu0
  have hk1 : ⌊u⌋ < n - 1 :=
    Int.floor_lt.mpr (show u < ((n - 1 : ℤ) : ℝ) by push_cast; linarith)
  refine ⟨⟨hk0, by omega⟩, fun samples => ⟨?_, ?_⟩⟩
  · rw [Interpolator.getClippedInput_,
      if_pos (show 0 ≤ ⌊u⌋ ∧ ⌊u⌋ < (Interpolator.create n m d).length_ from
        ⟨hk0, show ⌊u⌋ < n by omega⟩)]
  · rw [Interpolator.getClippedInput_,
      if_pos (show 0 ≤ ⌊u⌋ + 1 ∧ ⌊u⌋ + 1 < (Interpolator.create n m d).length_ from
        ⟨by omega, show ⌊u⌋ + 1 < n by omega⟩)]

theorem C10_linear_clamp_in_range_witness :
    (0 ≤ ⌊(Interpolator.create 2 1 detailsLinear).scaleFactor_ * (1/2 : ℝ)⌋ ∧
      ⌊(Interpolator.create 2 1 detailsLinear).scaleFactor_ * (1/2 : ℝ)⌋ + 1 < 2) ∧
    ∀ samples : List ℝ,
      (Interpolator.create 2 1 detailsLinear).getClippedInput_
          ⌊(Interpolator.create 2 1 detailsLinear).scaleFactor_ * (1/2 : ℝ)⌋ samples =
        arrayGet samples
          ⌊(Interpolator.create 2 1 detailsLinear).scaleFactor_ * (1/2 : ℝ)⌋ ∧
      (Interpolator.create 2 1 detailsLinear).getClippedInput_
          (⌊(Interpolator.create 2 1 detailsLinear).scaleFactor_ * (1/2 : ℝ)⌋ + 1)
          samples =
        arrayGet samples
          (⌊(Interpolator.create 2 1 detailsLinear).scaleFactor_ * (1/2 : ℝ)⌋ + 1) :=
  C10_linear_clamp_in_range 2 1 (by decide) (1/2) (by norm_num)
    (by norm_num) detailsLinear (by decide) (by decide) (by decide)
